import Mathlib

/-!
Shallow embedding of the core of the `mylib` C++ library
(`include/mylib/validators.h`, `include/mylib/io.h`,
`include/mylib/data_container.h`) and proofs about the claims of its
specification.

Console I/O is modelled by an explicit state: the remaining standard
input as a list of lines (a line never contains a newline character),
and the sequence of write events made to standard output.  The
`read_value` retry loop, which the C++ code runs without an iteration
bound, is embedded with a fuel parameter; exhausting the fuel (or
looping at end of input) yields `none`, which models non-termination.
-/

namespace Mylib

/-- State of the console: remaining input lines and emitted output events.
Each output event is one `std::cout` write sequence of a loop iteration
(a prompt, an error line, or a printed field line). -/
structure IOState where
  input : List String
  output : List String
deriving DecidableEq, Repr

/-- Whitespace test used for token extraction, modelling the default
whitespace skipping of `std::cin >> value`. -/
def isWS (c : Char) : Bool := c = ' ' || c = '\t'

/-- Splits the characters of one input line into its maximal
whitespace-free tokens.  `acc` holds the (reversed) characters of the
token currently being scanned. -/
def tokenizeAux : List Char → List Char → List String
  | [], acc => if acc.isEmpty then [] else [String.mk acc.reverse]
  | c :: cs, acc =>
    if isWS c then
      if acc.isEmpty then tokenizeAux cs []
      else String.mk acc.reverse :: tokenizeAux cs []
    else tokenizeAux cs (c :: acc)

/-- The whitespace-delimited tokens of one input line. -/
def lineTokens (line : String) : List String := tokenizeAux line.toList []

/-- All tokens remaining on the input, in order. -/
def tokensOf (input : List String) : List String :=
  (input.map lineTokens).flatten

/-- One token-oriented extraction step, modelling
`std::cin >> value; std::cin.ignore(max, '\n');` in
`read_value` (io.h).  `operator>>` skips whitespace (moving past
token-free lines), reads the first token of the first line that has
one, and the unconditional `ignore` then discards the remainder of
that line.  Returns `none` at end of input (`cin` fails). -/
def nextToken : List String → Option (String × List String)
  | [] => none
  | line :: rest =>
    match lineTokens line with
    | [] => nextToken rest
    | tok :: _ => some (tok, rest)

/-- Numerical value of a list of decimal digit characters. -/
def digitsToNat (cs : List Char) : Nat :=
  cs.foldl (fun acc c => acc * 10 + (c.toNat - 48)) 0

/-- `std::numeric_limits<int>::lowest()` for the 32-bit `int` of the
target platform. -/
def INT_MIN : Int := -(2 ^ 31)

/-- `std::numeric_limits<int>::max()` for the 32-bit `int` of the
target platform. -/
def INT_MAX : Int := 2 ^ 31 - 1

/-- Models `std::cin >> value` extraction of an `int` from one token:
an optional sign followed by decimal digits; extraction succeeds on the
longest valid numeric leading segment and fails when there is no digit
or when the value overflows the `int` range (C++11 `num_get` sets
`failbit` on overflow). -/
def parseIntTok (tok : String) : Option Int :=
  let cs := tok.toList
  let sign : Int :=
    match cs with
    | '-' :: _ => -1
    | _ => 1
  let body : List Char :=
    match cs with
    | '-' :: r => r
    | '+' :: r => r
    | r => r
  let digits := body.takeWhile (fun c => c.isDigit)
  if digits.isEmpty then none
  else
    let v : Int := sign * (digitsToNat digits : Int)
    if v < INT_MIN ∨ INT_MAX < v then none else some v

/-- Abstraction of IEEE floating-point values, keeping exactly the
structure the library inspects: a finite value, a NaN, or an infinity.
`std::isnan` / `std::isinf` are the constructor tests below. -/
inductive FloatVal
  | finite (q : ℚ)
  | nan
  | posInf
  | negInf
deriving DecidableEq, Repr

/-- `std::isnan`. -/
def FloatVal.isnan : FloatVal → Bool
  | .nan => true
  | _ => false

/-- `std::isinf`. -/
def FloatVal.isinf : FloatVal → Bool
  | .posInf => true
  | .negInf => true
  | _ => false

/-- The `InputValidator<T>` interface of validators.h: a per-type
validity predicate and a display name for error messages. -/
structure InputValidator (T : Type) where
  is_valid : T → Bool
  type_name : String

/-- The primary `InputValidator` template of validators.h: accepts all
values, display name "value". -/
def InputValidator_default (T : Type) : InputValidator T :=
  ⟨fun _ => true, "value"⟩

/-- The `InputValidator` specialization for integral types
(validators.h): always valid, display name "integer".  Embedded at the
`int` instantiation. -/
def InputValidator_int : InputValidator Int :=
  ⟨fun _ => true, "integer"⟩

/-- The `InputValidator` specialization for floating-point types
(validators.h): `!std::isnan(value) && !std::isinf(value)`, display
name "number". -/
def InputValidator_float : InputValidator FloatVal :=
  ⟨fun value => !value.isnan && !value.isinf, "number"⟩

/-- The `InputValidator` specialization for `std::string`
(validators.h): `!value.empty()`, display name "text". -/
def InputValidator_string : InputValidator String :=
  ⟨fun value => !value.isEmpty, "text"⟩

/-- The non-string branch of `read_value` (io.h): per iteration, write
the prompt, extract one token (with the rest of its line discarded by
`cin.ignore`), and on extraction failure print the type-specific format
error and retry; on a parsed value run `InputValidator<T>::is_valid`
and the caller's validator, returning the value when both accept and
printing `error_msg` and retrying otherwise.  At end of input `cin`
keeps failing, so the loop spins printing the format error; fuel `0`
models the loop still running. -/
def read_value_tok {T : Type} (V : InputValidator T) (parse : String → Option T)
    (prompt : String) (validator : T → Bool) (error_msg : String) :
    Nat → IOState → Option (T × IOState)
  | 0, _ => none
  | fuel + 1, s =>
    match nextToken s.input with
    | none =>
        read_value_tok V parse prompt validator error_msg fuel
          ⟨[], s.output ++ [prompt] ++
            ["Error: Invalid " ++ V.type_name ++ " format. " ++ error_msg]⟩
    | some (tok, rest) =>
      match parse tok with
      | none =>
          read_value_tok V parse prompt validator error_msg fuel
            ⟨rest, s.output ++ [prompt] ++
              ["Error: Invalid " ++ V.type_name ++ " format. " ++ error_msg]⟩
      | some value =>
        if V.is_valid value && validator value then
          some (value, ⟨rest, s.output ++ [prompt]⟩)
        else
          read_value_tok V parse prompt validator error_msg fuel
            ⟨rest, s.output ++ [prompt] ++ [error_msg]⟩

/-- The `std::string` branch of `read_value` (io.h): per iteration,
write the prompt and `std::getline` one full line; there is no stream
failure check in this branch, so the line goes straight to
`InputValidator<std::string>::is_valid` and the caller's validator,
with `error_msg` printed and the loop retried on rejection.  At end of
input `getline` yields the empty string, which the validator rejects,
so the loop spins printing `error_msg`. -/
def read_value_str (prompt : String) (validator : String → Bool)
    (error_msg : String) : Nat → IOState → Option (String × IOState)
  | 0, _ => none
  | fuel + 1, s =>
    match s.input with
    | [] =>
        read_value_str prompt validator error_msg fuel
          ⟨[], s.output ++ [prompt] ++ [error_msg]⟩
    | line :: rest =>
      if InputValidator_string.is_valid line && validator line then
        some (line, ⟨rest, s.output ++ [prompt]⟩)
      else
        read_value_str prompt validator error_msg fuel
          ⟨rest, s.output ++ [prompt] ++ [error_msg]⟩

/-- The compile-time `if constexpr (std::is_same_v<T, std::string>)`
dispatch inside `read_value` (io.h), reified per type: a non-string
type reads tokens through its `InputValidator` and extraction
function, `std::string` reads whole lines. -/
inductive ReadDispatch : Type → Type 1
  | tok {T : Type} (V : InputValidator T) (parse : String → Option T) :
      ReadDispatch T
  | line : ReadDispatch String

/-- `read_value<T>` (io.h) assembled from the two branch loops
according to the type's dispatch. -/
def read_value {T : Type} (d : ReadDispatch T) (prompt : String)
    (validator : T → Bool) (error_msg : String) (fuel : Nat) (s : IOState) :
    Option (T × IOState) :=
  match d with
  | .tok V parse => read_value_tok V parse prompt validator error_msg fuel s
  | .line => read_value_str prompt validator error_msg fuel s

/-- The default `validator` argument of `read_value` (io.h):
`[](const T&){ return true; }`. -/
def default_validator (T : Type) : T → Bool := fun _ => true

/-- The default `error_msg` argument of `read_value` (io.h). -/
def default_error_msg : String := "Invalid input. Please try again."

/-- `read_number<T>` (io.h) generically: builds the range validator
`num >= min_value && num <= max_value` and the error message
`"Please enter a number between " << min_value << " and " << max_value
<< "."`, then calls `read_value`.  The order test `le` and the
stream-print function `tstr` stand for the type's `operator<=` (via
`>=`/`<=`) and `operator<<`. -/
def read_number_gen {T : Type} (V : InputValidator T)
    (parse : String → Option T) (tstr : T → String) (le : T → T → Bool)
    (prompt : String) (min_value max_value : T) (fuel : Nat) (s : IOState) :
    Option (T × IOState) :=
  let range_validator : T → Bool :=
    fun num => le min_value num && le num max_value
  let error_msg : String :=
    "Please enter a number between " ++ tstr min_value ++ " and " ++
      tstr max_value ++ "."
  read_value_tok V parse prompt range_validator error_msg fuel s

/-- `read_number<int>` (io.h). -/
def read_number (prompt : String) (min_value max_value : Int)
    (fuel : Nat) (s : IOState) : Option (Int × IOState) :=
  read_number_gen InputValidator_int parseIntTok (fun v => toString v)
    (fun a b => decide (a ≤ b)) prompt min_value max_value fuel s

/-- `read_number<int>` with its default bound arguments
`std::numeric_limits<int>::lowest()` and
`std::numeric_limits<int>::max()` (io.h). -/
def read_number_default (prompt : String) (fuel : Nat) (s : IOState) :
    Option (Int × IOState) :=
  read_number prompt INT_MIN INT_MAX fuel s

/-- The two error conditions `data_container.h` reports by throwing:
`std::invalid_argument` on construction arity mismatch and
`std::out_of_range` on a field-name lookup out of bounds. -/
inductive ContainerError
  | arityMismatch
  | indexOutOfRange
deriving DecidableEq, Repr

/-- `DataContainer<Fields...>` (data_container.h): the
`std::tuple<Fields...> data` member becomes a dependent function over
field positions, and `std::vector<std::string> field_names` a list. -/
structure DataContainer (n : Nat) (Ts : Fin n → Type) where
  data : ∀ i : Fin n, Ts i
  field_names : List String

/-- The `DataContainer` constructor (data_container.h): stores the
names and throws `std::invalid_argument` when their number differs from
`sizeof...(Fields)`.  The `data` tuple member is default-constructed;
`defaults` supplies each field type's default value. -/
def DataContainer.construct (n : Nat) (Ts : Fin n → Type)
    (defaults : ∀ i : Fin n, Ts i) (names : List String) :
    Except ContainerError (DataContainer n Ts) :=
  if names.length ≠ n then .error .arityMismatch
  else .ok ⟨defaults, names⟩

/-- `DataContainer::set_field<Index>` (data_container.h):
`std::get<Index>(data) = value;`. -/
def DataContainer.set_field {n : Nat} {Ts : Fin n → Type}
    (c : DataContainer n Ts) (i : Fin n) (value : Ts i) :
    DataContainer n Ts :=
  ⟨Function.update c.data i value, c.field_names⟩

/-- `DataContainer::get_field<Index>` (data_container.h):
`return std::get<Index>(data);`. -/
def DataContainer.get_field {n : Nat} {Ts : Fin n → Type}
    (c : DataContainer n Ts) (i : Fin n) : Ts i :=
  c.data i

/-- `DataContainer::get_field_name` (data_container.h): throws
`std::out_of_range` when `index >= field_names.size()`, otherwise
returns `field_names[index]`. -/
def DataContainer.get_field_name {n : Nat} {Ts : Fin n → Type}
    (c : DataContainer n Ts) (index : Nat) :
    Except ContainerError String :=
  if h : c.field_names.length ≤ index then .error .indexOutOfRange
  else .ok (c.field_names.get ⟨index, Nat.lt_of_not_le h⟩)

/-- `DataContainer::size` (data_container.h): `sizeof...(Fields)`. -/
def DataContainer.size {n : Nat} {Ts : Fin n → Type}
    (_ : DataContainer n Ts) : Nat :=
  n

/-- A sequence of `set_field` calls, applied in order. -/
def applyUpdates {n : Nat} {Ts : Fin n → Type} (c : DataContainer n Ts)
    (updates : List ((j : Fin n) × Ts j)) : DataContainer n Ts :=
  updates.foldl (fun c u => c.set_field u.1 u.2) c

/-- Outcome of the bulk-populate machinery over a container: a normal
return, a propagated thrown error, or an interruption (a field read
that never completes).  The container and console state carried by
`thrown`/`interrupted` are the ones current when the mutation sequence
stopped, since the C++ code mutates the container by reference. -/
inductive RunResult (n : Nat) (Ts : Fin n → Type)
  | ok (c : DataContainer n Ts) (s : IOState)
  | thrown (e : ContainerError) (c : DataContainer n Ts) (s : IOState)
  | interrupted (c : DataContainer n Ts) (s : IOState)

/-- The container held by a `RunResult`. -/
def RunResult.container {n : Nat} {Ts : Fin n → Type} :
    RunResult n Ts → DataContainer n Ts
  | .ok c _ => c
  | .thrown _ c _ => c
  | .interrupted c _ => c

/-- Whether a `RunResult` is an interruption. -/
def RunResult.isInterrupted {n : Nat} {Ts : Fin n → Type} :
    RunResult n Ts → Bool
  | .interrupted _ _ => true
  | _ => false

/-- `read_and_set_field<Index>` (data_container.h): builds the prompt
`"Enter " + container.get_field_name(Index) + ": "`, calls
`read_value<FieldType>(prompt)` with its default validator and error
message, and stores the result with `set_field<Index>`. -/
def read_and_set_field {n : Nat} {Ts : Fin n → Type}
    (disp : ∀ i : Fin n, ReadDispatch (Ts i)) (i : Fin n) (fuel : Nat)
    (c : DataContainer n Ts) (s : IOState) : RunResult n Ts :=
  match c.get_field_name i.val with
  | .error e => .thrown e c s
  | .ok name =>
    match read_value (disp i) ("Enter " ++ name ++ ": ")
        (default_validator (Ts i)) default_error_msg fuel s with
    | none => .interrupted c s
    | some (value, s') => .ok (c.set_field i value) s'

/-- The left-to-right sequencing of `read_and_set_field` calls produced
by the fold expression in `read_data_container_helper`
(data_container.h), over an explicit list of field positions. -/
def read_fields_go {n : Nat} {Ts : Fin n → Type}
    (disp : ∀ i : Fin n, ReadDispatch (Ts i)) (fuel : Nat) :
    List (Fin n) → DataContainer n Ts → IOState → RunResult n Ts
  | [], c, s => .ok c s
  | i :: is, c, s =>
    match read_and_set_field disp i fuel c s with
    | .ok c' s' => read_fields_go disp fuel is c' s'
    | .thrown e c' s' => .thrown e c' s'
    | .interrupted c' s' => .interrupted c' s'

/-- `read_data_container_helper` (data_container.h): expands
`std::make_index_sequence<sizeof...(Fields)>`, i.e. the positions
`0, ..., n-1` in order, over `read_and_set_field`. -/
def read_data_container_helper {n : Nat} {Ts : Fin n → Type}
    (disp : ∀ i : Fin n, ReadDispatch (Ts i)) (fuel : Nat)
    (c : DataContainer n Ts) (s : IOState) : RunResult n Ts :=
  read_fields_go disp fuel (List.finRange n) c s

/-- `read_data_container` (data_container.h): constructs the container
from the names (propagating the constructor's throw) and populates
every field. -/
def read_data_container {n : Nat} {Ts : Fin n → Type}
    (disp : ∀ i : Fin n, ReadDispatch (Ts i)) (fuel : Nat)
    (defaults : ∀ i : Fin n, Ts i) (field_names : List String)
    (s : IOState) : Except ContainerError (RunResult n Ts) :=
  match DataContainer.construct n Ts defaults field_names with
  | .error e => .error e
  | .ok container => .ok (read_data_container_helper disp fuel container s)

/-- `print_field<Index>` (data_container.h):
`std::cout << container.get_field_name(Index) << ": " <<
container.get_field<Index>() << std::endl;` — nothing is printed when
the name lookup throws.  `shows` stands for each field type's
`operator<<`. -/
def print_field {n : Nat} {Ts : Fin n → Type}
    (shows : ∀ i : Fin n, Ts i → String) (i : Fin n)
    (c : DataContainer n Ts) (out : List String) :
    Except ContainerError (List String) :=
  match c.get_field_name i.val with
  | .error e => .error e
  | .ok name => .ok (out ++ [name ++ ": " ++ shows i (c.get_field i)])

/-- The fold expression of `print_data_container_helper`
(data_container.h) over an explicit list of field positions. -/
def print_fields_go {n : Nat} {Ts : Fin n → Type}
    (shows : ∀ i : Fin n, Ts i → String) (c : DataContainer n Ts) :
    List (Fin n) → List String → Except ContainerError (List String)
  | [], out => .ok out
  | i :: is, out =>
    match print_field shows i c out with
    | .error e => .error e
    | .ok out' => print_fields_go shows c is out'

/-- `print_data_container` (data_container.h): prints the header line
when the header is non-empty, then every field through
`print_data_container_helper` over `std::make_index_sequence`. -/
def print_data_container {n : Nat} {Ts : Fin n → Type}
    (shows : ∀ i : Fin n, Ts i → String) (c : DataContainer n Ts)
    (header : String) (out : List String) :
    Except ContainerError (List String) :=
  let out1 := if header.isEmpty then out else out ++ [header]
  print_fields_go shows c (List.finRange n) out1

/-- Modelled from the spec, for comparison with
`read_data_container_helper`: "for each field position in declared
order (0 .. arity-1), builds a prompt of the form
`"Enter " + field_name + ": "`, invokes the Typed Value Reader bound to
that field's static type with no extra predicate, and writes the result
into the field's slot via `set_field`" — explicit recursion over the
position counter list `0, ..., n-1`. -/
def populate_spec_go {n : Nat} {Ts : Fin n → Type}
    (disp : ∀ i : Fin n, ReadDispatch (Ts i)) (fuel : Nat) :
    List Nat → DataContainer n Ts → IOState → RunResult n Ts
  | [], c, s => .ok c s
  | k :: ks, c, s =>
    if h : k < n then
      match c.get_field_name k with
      | .error e => .thrown e c s
      | .ok name =>
        match read_value (disp ⟨k, h⟩) ("Enter " ++ name ++ ": ")
            (default_validator (Ts ⟨k, h⟩)) default_error_msg fuel s with
        | none => .interrupted c s
        | some (value, s') =>
          populate_spec_go disp fuel ks (c.set_field ⟨k, h⟩ value) s'
    else .thrown .indexOutOfRange c s

/-- Modelled from the spec: the bulk populate pass over the positions
`0 .. arity-1` in declared order. -/
def populate_spec {n : Nat} {Ts : Fin n → Type}
    (disp : ∀ i : Fin n, ReadDispatch (Ts i)) (fuel : Nat)
    (c : DataContainer n Ts) (s : IOState) : RunResult n Ts :=
  populate_spec_go disp fuel (List.range n) c s

/-- A two-`int`-field demonstration container and its per-field
dispatch, used to exercise the populate and print machinery on
concrete inputs. -/
abbrev twoIntTs : Fin 2 → Type := fun _ => Int

/-- Dispatch of both demonstration fields: token reads through the
integral validator. -/
def twoIntDisp : ∀ i : Fin 2, ReadDispatch (twoIntTs i) :=
  fun _ => .tok InputValidator_int parseIntTok

/-- The demonstration container with names `A`, `B` and
default-constructed (zero) fields. -/
def twoIntC : DataContainer 2 twoIntTs := ⟨fun _ => 0, ["A", "B"]⟩

/-! ## Lemmas about the reader loops -/

/-- Soundness of the token branch of `read_value`: a returned value
passed both the type's validity rule and the caller's validator. -/
theorem read_value_tok_sound {T : Type} (V : InputValidator T)
    (parse : String → Option T) (prompt : String) (validator : T → Bool)
    (error_msg : String) :
    ∀ (fuel : Nat) (s : IOState) (v : T) (s' : IOState),
      read_value_tok V parse prompt validator error_msg fuel s = some (v, s') →
      V.is_valid v = true ∧ validator v = true := by
  intro fuel
  induction fuel with
  | zero => intro s v s' h; simp [read_value_tok] at h
  | succ fuel ih =>
    intro s v s' h
    unfold read_value_tok at h
    split at h
    · exact ih _ _ _ h
    · split at h
      · exact ih _ _ _ h
      · split at h
        · rename_i value hvalid
          simp only [Option.some.injEq, Prod.mk.injEq] at h
          obtain ⟨h1, _⟩ := h
          subst h1
          exact And.imp_right (fun hr => hr) (Bool.and_eq_true _ _ |>.mp hvalid)
        · exact ih _ _ _ h

/-- Soundness of the line branch of `read_value`: a returned line is
non-empty and passed the caller's validator. -/
theorem read_value_str_sound (prompt : String) (validator : String → Bool)
    (error_msg : String) :
    ∀ (fuel : Nat) (s : IOState) (v : String) (s' : IOState),
      read_value_str prompt validator error_msg fuel s = some (v, s') →
      InputValidator_string.is_valid v = true ∧ validator v = true := by
  intro fuel
  induction fuel with
  | zero => intro s v s' h; simp [read_value_str] at h
  | succ fuel ih =>
    intro s v s' h
    unfold read_value_str at h
    split at h
    · exact ih _ _ _ h
    · split at h
      · rename_i line rest hvalid
        simp only [Option.some.injEq, Prod.mk.injEq] at h
        obtain ⟨h1, _⟩ := h
        subst h1
        exact And.imp_right (fun hr => hr) (Bool.and_eq_true _ _ |>.mp hvalid)
      · exact ih _ _ _ h

/-- Claim C1: for every type, every caller-supplied predicate and every
input sequence, `read_value` only returns a value accepted by both the
type's validity rule (`InputValidator<T>::is_valid`) and the
caller-supplied predicate, whatever invalid inputs precede it — in both
the token branch (any `T` with any extraction function) and the
`std::string` line branch. -/
theorem claim1_read_value_never_invalid :
    (∀ (T : Type) (V : InputValidator T) (parse : String → Option T)
       (prompt : String) (validator : T → Bool) (error_msg : String)
       (fuel : Nat) (s : IOState) (v : T) (s' : IOState),
      read_value (.tok V parse) prompt validator error_msg fuel s =
          some (v, s') →
      V.is_valid v = true ∧ validator v = true) ∧
    (∀ (prompt : String) (validator : String → Bool) (error_msg : String)
       (fuel : Nat) (s : IOState) (v : String) (s' : IOState),
      read_value .line prompt validator error_msg fuel s = some (v, s') →
      InputValidator_string.is_valid v = true ∧ validator v = true) := by
  constructor
  · intro T V parse prompt validator error_msg fuel s v s' h
    exact read_value_tok_sound V parse prompt validator error_msg fuel s v s' h
  · intro prompt validator error_msg fuel s v s' h
    exact read_value_str_sound prompt validator error_msg fuel s v s' h

/-- Witness for C1: with inputs `-3` then `5` and the predicate
`0 < v`, the reader returns `5`, and the theorem yields that `5` is
valid and satisfies the predicate. -/
theorem claim1_witness :
    InputValidator_int.is_valid 5 = true ∧
      (fun v : Int => decide (0 < v)) 5 = true :=
  claim1_read_value_never_invalid.1 Int InputValidator_int parseIntTok "p"
    (fun v : Int => decide (0 < v)) "e" 2 ⟨["-3", "5"], []⟩ 5
    ⟨[], ["p", "e", "p"]⟩ (by decide)

/-- Claim C2: the per-type validity rules are exactly: integral types
always valid ("integer"), floating-point types valid iff neither NaN
nor infinite ("number"), text valid iff non-empty ("text"), anything
else always valid ("value"); in particular plain `read_value<int>`
accepts `-5`. -/
theorem claim2_validity_rules :
    (∀ v : Int, InputValidator_int.is_valid v = true) ∧
    InputValidator_int.type_name = "integer" ∧
    (∀ v : FloatVal, InputValidator_float.is_valid v = true ↔
      v ≠ FloatVal.nan ∧ v ≠ FloatVal.posInf ∧ v ≠ FloatVal.negInf) ∧
    InputValidator_float.type_name = "number" ∧
    (∀ s : String, InputValidator_string.is_valid s = true ↔ s ≠ "") ∧
    InputValidator_string.type_name = "text" ∧
    (∀ (T : Type) (v : T), (InputValidator_default T).is_valid v = true) ∧
    (∀ T : Type, (InputValidator_default T).type_name = "value") ∧
    read_value (.tok InputValidator_int parseIntTok) "Enter: "
        (default_validator Int) default_error_msg 1 ⟨["-5"], []⟩ =
      some (-5, ⟨[], ["Enter: "]⟩) := by
  refine ⟨fun _ => rfl, rfl, ?_, rfl, ?_, rfl, fun _ _ => rfl, fun _ => rfl,
    by decide⟩
  · intro v
    cases v <;>
      simp [InputValidator_float, FloatVal.isnan, FloatVal.isinf]
  · intro s
    simp only [InputValidator_string, Bool.not_eq_true']
    rw [Bool.eq_false_iff]
    exact not_congr (String.isEmpty_iff s)

/-- Claim C3: `read_number` is `read_value` with the side predicate
`min <= v <= max` and an error message embedding the bounds; its
default bounds are the full representable `int` range; and on inputs
`15`, `abc`, `7` with bounds 1..10 it rejects 15 with the range
message, rejects `abc` with the type-specific format message, and
returns 7. -/
theorem claim3_read_number :
    (∀ (prompt : String) (min_value max_value : Int),
      min_value ≤ max_value →
      ∀ (fuel : Nat) (s : IOState),
        read_number prompt min_value max_value fuel s =
          read_value (.tok InputValidator_int parseIntTok) prompt
            (fun v => decide (min_value ≤ v ∧ v ≤ max_value))
            ("Please enter a number between " ++ toString min_value ++
              " and " ++ toString max_value ++ ".") fuel s) ∧
    (∀ (prompt : String) (fuel : Nat) (s : IOState),
      read_number_default prompt fuel s =
        read_number prompt INT_MIN INT_MAX fuel s) ∧
    read_number "Enter 1-10: " 1 10 3 ⟨["15", "abc", "7"], []⟩ =
      some (7, ⟨[],
        ["Enter 1-10: ", "Please enter a number between 1 and 10.",
         "Enter 1-10: ",
         "Error: Invalid integer format. Please enter a number between 1 and 10.",
         "Enter 1-10: "]⟩) := by
  refine ⟨?_, fun _ _ _ => rfl, by decide⟩
  intro prompt min_value max_value _ fuel s
  have hv : (fun num : Int => decide (min_value ≤ num) && decide (num ≤ max_value)) =
      fun v : Int => decide (min_value ≤ v ∧ v ≤ max_value) := by
    funext v
    exact Bool.and_eq_decide _ _
  simp only [read_number, read_number_gen, read_value]
  rw [hv]

/-- Witness for C3: the equivalence instantiated at bounds 1..10 and
the scenario input. -/
theorem claim3_witness :
    read_number "Enter 1-10: " 1 10 3 ⟨["15", "abc", "7"], []⟩ =
      read_value (.tok InputValidator_int parseIntTok) "Enter 1-10: "
        (fun v => decide (1 ≤ v ∧ v ≤ 10))
        ("Please enter a number between " ++ toString (1 : Int) ++ " and " ++
          toString (10 : Int) ++ ".") 3 ⟨["15", "abc", "7"], []⟩ :=
  claim3_read_number.1 "Enter 1-10: " 1 10 (by decide) 3 ⟨["15", "abc", "7"], []⟩

/-! ## Lemmas about the container -/

/-- Inversion of a successful construction: the name count matched and
the container holds the default data and the given names. -/
theorem construct_ok_inv {n : Nat} {Ts : Fin n → Type}
    {defaults : ∀ i : Fin n, Ts i} {names : List String}
    {c : DataContainer n Ts}
    (h : DataContainer.construct n Ts defaults names = .ok c) :
    names.length = n ∧ c = ⟨defaults, names⟩ := by
  unfold DataContainer.construct at h
  split at h
  · cases h
  · next hne =>
    cases h
    exact ⟨Not.imp_symm (fun hl => hl) hne, rfl⟩

/-- Claim C5: construction fails with the arity-mismatch error exactly
when the name count differs from the declared field count, and succeeds
(keeping the names and default data) when it matches. -/
theorem claim5_construct_arity :
    ∀ (n : Nat) (Ts : Fin n → Type) (defaults : ∀ i : Fin n, Ts i)
      (names : List String),
      (names.length ≠ n ↔
        DataContainer.construct n Ts defaults names = .error .arityMismatch) ∧
      (names.length = n →
        DataContainer.construct n Ts defaults names = .ok ⟨defaults, names⟩) := by
  intro n Ts defaults names
  refine ⟨⟨fun h => ?_, fun h => ?_⟩, fun h => ?_⟩
  · simp [DataContainer.construct, h]
  · by_contra hne
    rw [DataContainer.construct, if_neg (not_not_intro hne)] at h
    cases h
  · simp [DataContainer.construct, h]

/-- Witness for C5: a one-field container rejects two names and accepts
one. -/
theorem claim5_witness :
    DataContainer.construct 1 (fun _ => Int) (fun _ => 0) ["a", "b"] =
      .error .arityMismatch ∧
    DataContainer.construct 1 (fun _ => Int) (fun _ => 0) ["a"] =
      .ok ⟨fun _ => 0, ["a"]⟩ :=
  ⟨(claim5_construct_arity 1 (fun _ => Int) (fun _ => 0) ["a", "b"]).1.mp
      (by decide),
   (claim5_construct_arity 1 (fun _ => Int) (fun _ => 0) ["a"]).2 rfl⟩

/-- Claim C7: `get_field` never fails (it is total); after construction
every slot holds its type's default value, and after `set_field i v`
the slot `i` holds exactly `v`, for every value `v`. -/
theorem claim7_get_set_roundtrip :
    ∀ (n : Nat) (Ts : Fin n → Type) (defaults : ∀ i : Fin n, Ts i)
      (names : List String) (c : DataContainer n Ts),
      DataContainer.construct n Ts defaults names = .ok c →
      (∀ i : Fin n, c.get_field i = defaults i) ∧
      (∀ (c' : DataContainer n Ts) (i : Fin n) (v : Ts i),
        (c'.set_field i v).get_field i = v) := by
  intro n Ts defaults names c h
  obtain ⟨-, hc⟩ := construct_ok_inv h
  subst hc
  refine ⟨fun i => rfl, fun c' i v => ?_⟩
  simp [DataContainer.set_field, DataContainer.get_field,
    Function.update_same]

/-- Witness for C7: a one-field integer container starts at the default
`0` and round-trips the value `5` (and, separately checked below the
theorem application, boundary values behave the same way). -/
theorem claim7_witness :
    (⟨fun _ => (0 : Int), ["a"]⟩ :
        DataContainer 1 fun _ => Int).get_field 0 = 0 ∧
    ((⟨fun _ => (0 : Int), ["a"]⟩ :
        DataContainer 1 fun _ => Int).set_field 0 5).get_field 0 = 5 :=
  ⟨(claim7_get_set_roundtrip 1 (fun _ => Int) (fun _ => 0) ["a"] _ rfl).1 0,
   (claim7_get_set_roundtrip 1 (fun _ => Int) (fun _ => 0) ["a"] _ rfl).2
      _ 0 5⟩

/-- `set_field` only touches the `data` tuple; the names vector is
untouched. -/
theorem set_field_field_names {n : Nat} {Ts : Fin n → Type}
    (c : DataContainer n Ts) (i : Fin n) (v : Ts i) :
    (c.set_field i v).field_names = c.field_names := rfl

/-- A sequence of `set_field` calls leaves the names vector
untouched. -/
theorem applyUpdates_field_names {n : Nat} {Ts : Fin n → Type} :
    ∀ (updates : List ((j : Fin n) × Ts j)) (c : DataContainer n Ts),
      (applyUpdates c updates).field_names = c.field_names := by
  intro updates
  induction updates with
  | nil => intro c; rfl
  | cons u updates ih =>
    intro c
    simp only [applyUpdates, List.foldl_cons] at ih ⊢
    rw [ih, set_field_field_names]

/-- `get_field_name` reads only the names vector. -/
theorem get_field_name_congr {n : Nat} {Ts : Fin n → Type}
    {c c' : DataContainer n Ts} (h : c.field_names = c'.field_names)
    (index : Nat) : c.get_field_name index = c'.get_field_name index := by
  obtain ⟨d, fs⟩ := c
  obtain ⟨d', fs'⟩ := c'
  simp only at h
  subst h
  rfl

/-- Claim C6: on a successfully constructed container,
`get_field_name i` fails with the out-of-range error exactly when
`i >= size()`, otherwise returns the name supplied at construction for
position `i`, and that answer is unchanged by any sequence of
`set_field` calls. -/
theorem claim6_get_field_name :
    ∀ (n : Nat) (Ts : Fin n → Type) (defaults : ∀ i : Fin n, Ts i)
      (names : List String) (c : DataContainer n Ts),
      DataContainer.construct n Ts defaults names = .ok c →
      ∀ i : Nat,
        (c.size ≤ i ↔ c.get_field_name i = .error .indexOutOfRange) ∧
        (i < c.size → c.get_field_name i = .ok (names.getD i "")) ∧
        (∀ updates : List ((j : Fin n) × Ts j),
          (applyUpdates c updates).get_field_name i = c.get_field_name i) := by
  intro n Ts defaults names c h i
  obtain ⟨hlen, hc⟩ := construct_ok_inv h
  subst hc
  have hsz : ((⟨defaults, names⟩ : DataContainer n Ts)).size = n := rfl
  refine ⟨⟨fun hle => ?_, fun herr => ?_⟩, fun hlt => ?_, fun updates => ?_⟩
  · rw [DataContainer.get_field_name, dif_pos (by simpa [hlen] using hle)]
  · rw [hsz]
    by_contra hlt
    rw [DataContainer.get_field_name,
      dif_neg (by simp only [hlen]; omega)] at herr
    cases herr
  · rw [hsz] at hlt
    rw [DataContainer.get_field_name, dif_neg (by simp only [hlen]; omega)]
    congr 1
    rw [List.getD_eq_getElem names "" (by omega)]
    simp [List.get_eq_getElem]
  · exact get_field_name_congr (applyUpdates_field_names updates _) i

/-- Witness for C6: a one-field container rejects index 1, returns
`"a"` at index 0, and still does so after a `set_field`. -/
theorem claim6_witness :
    ((⟨fun _ => (0 : Int), ["a"]⟩ :
        DataContainer 1 fun _ => Int).get_field_name 1 =
      .error .indexOutOfRange) ∧
    ((⟨fun _ => (0 : Int), ["a"]⟩ :
        DataContainer 1 fun _ => Int).get_field_name 0 = .ok "a") ∧
    ((applyUpdates (⟨fun _ => (0 : Int), ["a"]⟩ :
        DataContainer 1 fun _ => Int) [⟨0, 5⟩]).get_field_name 0 =
      (⟨fun _ => (0 : Int), ["a"]⟩ :
        DataContainer 1 fun _ => Int).get_field_name 0) :=
  ⟨(claim6_get_field_name 1 (fun _ => Int) (fun _ => 0) ["a"] _ rfl 1).1.mp
      (by decide),
   (claim6_get_field_name 1 (fun _ => Int) (fun _ => 0) ["a"] _ rfl 0).2.1
      (by decide),
   (claim6_get_field_name 1 (fun _ => Int) (fun _ => 0) ["a"] _ rfl 0).2.2
      [⟨0, 5⟩]⟩

/-- The source's fold over an index sequence and the spec's counter
recursion agree on any position list. -/
theorem read_fields_go_eq_populate_go {n : Nat} {Ts : Fin n → Type}
    (disp : ∀ i : Fin n, ReadDispatch (Ts i)) (fuel : Nat) :
    ∀ (ks : List (Fin n)) (c : DataContainer n Ts) (s : IOState),
      read_fields_go disp fuel ks c s =
        populate_spec_go disp fuel (ks.map Fin.val) c s := by
  intro ks
  induction ks with
  | nil => intro c s; rfl
  | cons i ks ih =>
    intro c s
    cases hname : c.get_field_name i.val with
    | error e =>
      simp only [List.map_cons, read_fields_go, populate_spec_go,
        read_and_set_field, dif_pos i.isLt, Fin.eta, hname]
    | ok name =>
      cases hr : read_value (disp i) ("Enter " ++ name ++ ": ")
          (default_validator (Ts i)) default_error_msg fuel s with
      | none =>
        simp only [List.map_cons, read_fields_go, populate_spec_go,
          read_and_set_field, dif_pos i.isLt, Fin.eta, hname, hr]
      | some p =>
        simp only [List.map_cons, read_fields_go, populate_spec_go,
          read_and_set_field, dif_pos i.isLt, Fin.eta, hname, hr]
        exact ih _ _

/-- Positions outside the remaining work list are untouched by the
populate fold, whatever the outcome (normal, thrown, or an interrupted
field read). -/
theorem read_fields_go_preserves {n : Nat} {Ts : Fin n → Type}
    (disp : ∀ i : Fin n, ReadDispatch (Ts i)) (fuel : Nat) :
    ∀ (ks : List (Fin n)) (c : DataContainer n Ts) (s : IOState) (j : Fin n),
      (∀ i ∈ ks, j ≠ i) →
      ((read_fields_go disp fuel ks c s).container).data j = c.data j := by
  intro ks
  induction ks with
  | nil => intro c s j _; rfl
  | cons i ks ih =>
    intro c s j h
    have hji : j ≠ i := h i (List.mem_cons_self i ks)
    cases hname : c.get_field_name i.val with
    | error e =>
      simp only [read_fields_go, read_and_set_field, hname]
      rfl
    | ok name =>
      cases hr : read_value (disp i) ("Enter " ++ name ++ ": ")
          (default_validator (Ts i)) default_error_msg fuel s with
      | none =>
        simp only [read_fields_go, read_and_set_field, hname, hr]
        rfl
      | some p =>
        obtain ⟨v, s'⟩ := p
        simp only [read_fields_go, read_and_set_field, hname, hr]
        rw [ih (c.set_field i v) s' j
          (fun i' hi' => h i' (List.mem_cons_of_mem _ hi'))]
        simp [DataContainer.set_field, Function.update_noteq hji]

/-- Claim C4: the bulk populate pass visits positions `0 .. arity-1`
in declared order, building the prompt `"Enter " + name + ": "` and
reading with the default always-true validator before writing through
`set_field` (first conjunct: the source fold equals the spec's ordered
recursion; `read_data_container` runs it after constructing); already
populated positions keep their values even when a later read never
completes (second conjunct, and the concrete run in the third: with
input for only the first of two fields, the run is interrupted with
field 0 holding the read value and field 1 its default). -/
theorem claim4_populate :
    (∀ (n : Nat) (Ts : Fin n → Type) (disp : ∀ i : Fin n, ReadDispatch (Ts i))
       (fuel : Nat) (c : DataContainer n Ts) (s : IOState),
      read_data_container_helper disp fuel c s = populate_spec disp fuel c s) ∧
    (∀ (n : Nat) (Ts : Fin n → Type) (disp : ∀ i : Fin n, ReadDispatch (Ts i))
       (fuel : Nat) (defaults : ∀ i : Fin n, Ts i) (names : List String)
       (s : IOState),
      names.length = n →
      read_data_container disp fuel defaults names s =
        .ok (read_data_container_helper disp fuel ⟨defaults, names⟩ s)) ∧
    (∀ (n : Nat) (Ts : Fin n → Type) (disp : ∀ i : Fin n, ReadDispatch (Ts i))
       (fuel : Nat) (ks : List (Fin n)) (c : DataContainer n Ts) (s : IOState)
       (j : Fin n),
      (∀ i ∈ ks, j ≠ i) →
      ((read_fields_go disp fuel ks c s).container).data j = c.data j) ∧
    ((read_data_container_helper twoIntDisp 2 twoIntC
        ⟨["5"], []⟩).isInterrupted = true ∧
     (read_data_container_helper twoIntDisp 2 twoIntC
        ⟨["5"], []⟩).container.data 0 = 5 ∧
     (read_data_container_helper twoIntDisp 2 twoIntC
        ⟨["5"], []⟩).container.data 1 = 0) := by
  refine ⟨?_, ?_, ?_, by decide, by decide, by decide⟩
  · intro n Ts disp fuel c s
    rw [read_data_container_helper, populate_spec,
      read_fields_go_eq_populate_go, List.map_coe_finRange]
  · intro n Ts disp fuel defaults names s h
    rw [read_data_container, DataContainer.construct,
      if_neg (not_not_intro h)]
  · intro n Ts disp fuel ks c s j h
    exact read_fields_go_preserves disp fuel ks c s j h

/-- Witness for C4: the persistence part applied to position list `[1]`
and position `0` of the demonstration container. -/
theorem claim4_witness :
    ((read_fields_go twoIntDisp 2 [1] twoIntC ⟨["5"], []⟩).container).data 0 =
      twoIntC.data 0 :=
  claim4_populate.2.2.1 2 twoIntTs twoIntDisp 2 [1] twoIntC
    ⟨["5"], []⟩ 0 (by decide)

/-- The print fold succeeds and emits one line per listed position, in
order, whenever every listed position is within the names vector. -/
theorem print_fields_go_ok {n : Nat} {Ts : Fin n → Type}
    (shows : ∀ i : Fin n, Ts i → String) (c : DataContainer n Ts) :
    ∀ (ks : List (Fin n)) (out : List String),
      (∀ i ∈ ks, i.val < c.field_names.length) →
      print_fields_go shows c ks out =
        .ok (out ++ ks.map fun i =>
          c.field_names.getD i.val "" ++ ": " ++ shows i (c.get_field i)) := by
  intro ks
  induction ks with
  | nil => intro out _; simp [print_fields_go]
  | cons i ks ih =>
    intro out h
    have hi : i.val < c.field_names.length := h i (List.mem_cons_self i ks)
    have hname : c.get_field_name i.val =
        .ok (c.field_names.get ⟨i.val, hi⟩) := by
      rw [DataContainer.get_field_name, dif_neg (Nat.not_le.mpr hi)]
    simp only [print_fields_go, print_field, hname]
    rw [ih _ (fun i' hi' => h i' (List.mem_cons_of_mem _ hi'))]
    simp [List.getD_eq_getElem c.field_names "" hi, List.get_eq_getElem,
      List.getElem?_eq_getElem hi]

/-- Claim C9: `print_data_container` prints the header on its own line
exactly when it is non-empty, then one line `"<name>: <value>"` per
field in declared order; on the two-field container `X = 1`, `Y = 2`
with header `"Report"` the output is exactly `"Report"`, `"X: 1"`,
`"Y: 2"`. -/
theorem claim9_print :
    (∀ (n : Nat) (Ts : Fin n → Type) (shows : ∀ i : Fin n, Ts i → String)
       (c : DataContainer n Ts) (header : String) (out : List String),
      c.field_names.length = n →
      print_data_container shows c header out =
        .ok ((if header.isEmpty then out else out ++ [header]) ++
          (List.finRange n).map fun i =>
            c.field_names.getD i.val "" ++ ": " ++ shows i (c.get_field i))) ∧
    print_data_container (fun _ v => toString v)
        (⟨fun i => (i.val : Int) + 1, ["X", "Y"]⟩ : DataContainer 2 twoIntTs)
        "Report" [] =
      .ok ["Report", "X: 1", "Y: 2"] := by
  refine ⟨?_, by rfl⟩
  intro n Ts shows c header out h
  rw [print_data_container,
    print_fields_go_ok shows c (List.finRange n) _
      (fun i _ => lt_of_lt_of_le i.isLt h.symm.le)]

/-- Witness for C9: the general shape applied to the `Report`
container. -/
theorem claim9_witness :
    print_data_container (fun _ v => toString v)
        (⟨fun i => (i.val : Int) + 1, ["X", "Y"]⟩ : DataContainer 2 twoIntTs)
        "Report" [] =
      .ok ((if ("Report" : String).isEmpty then ([] : List String)
            else [] ++ ["Report"]) ++
        (List.finRange 2).map fun i =>
          (["X", "Y"].getD i.val "" ++ ": " ++
            toString ((i.val : Int) + 1))) :=
  claim9_print.1 2 twoIntTs (fun _ v => toString v)
    ⟨fun i => (i.val : Int) + 1, ["X", "Y"]⟩ "Report" [] rfl

/-- The populate fold never reaches the throwing branch of
`get_field_name` on a container whose names vector matches the
arity. -/
theorem read_fields_go_no_thrown {n : Nat} {Ts : Fin n → Type}
    (disp : ∀ i : Fin n, ReadDispatch (Ts i)) (fuel : Nat) :
    ∀ (ks : List (Fin n)) (c : DataContainer n Ts) (s : IOState),
      c.field_names.length = n →
      ∀ (e : ContainerError) (c' : DataContainer n Ts) (s' : IOState),
        read_fields_go disp fuel ks c s ≠ .thrown e c' s' := by
  intro ks
  induction ks with
  | nil => intro c s _ e c' s' h; cases h
  | cons i ks ih =>
    intro c s hlen e c' s'
    have hi : i.val < n := i.isLt
    have hname : c.get_field_name i.val =
        .ok (c.field_names.get ⟨i.val, by omega⟩) := by
      rw [DataContainer.get_field_name, dif_neg (by omega)]
    cases hr : read_value (disp i)
        ("Enter " ++ c.field_names.get ⟨i.val, by omega⟩ ++ ": ")
        (default_validator (Ts i)) default_error_msg fuel s with
    | none =>
      simp only [read_fields_go, read_and_set_field, hname, hr]
      intro h
      cases h
    | some p =>
      obtain ⟨v, s''⟩ := p
      simp only [read_fields_go, read_and_set_field, hname, hr]
      exact ih (c.set_field i v) s'' (by rw [set_field_field_names]; exact hlen)
        e c' s'

/-- Claim C10: on a well-formed container (names vector matching the
arity, as construction guarantees), bulk populate and bulk print never
raise the out-of-range error: every index they pass to
`get_field_name` comes from the index sequence over the arity. -/
theorem claim10_no_out_of_range :
    ∀ (n : Nat) (Ts : Fin n → Type) (disp : ∀ i : Fin n, ReadDispatch (Ts i))
      (fuel : Nat) (c : DataContainer n Ts) (s : IOState)
      (shows : ∀ i : Fin n, Ts i → String) (header : String)
      (out : List String),
      c.field_names.length = n →
      (∀ (e : ContainerError) (c' : DataContainer n Ts) (s' : IOState),
        read_data_container_helper disp fuel c s ≠ .thrown e c' s') ∧
      (∀ e : ContainerError,
        print_data_container shows c header out ≠ .error e) := by
  intro n Ts disp fuel c s shows header out h
  constructor
  · intro e c' s'
    exact read_fields_go_no_thrown disp fuel (List.finRange n) c s h e c' s'
  · intro e
    rw [print_data_container,
      print_fields_go_ok shows c (List.finRange n) _ (fun i _ => lt_of_lt_of_le i.isLt h.symm.le)]
    intro hcontra
    cases hcontra

/-- Witness for C10: the demonstration container neither throws while
populating nor errors while printing. -/
theorem claim10_witness :
    (read_data_container_helper twoIntDisp 2 twoIntC ⟨[], []⟩ ≠
      .thrown .indexOutOfRange twoIntC ⟨[], []⟩) ∧
    (print_data_container (fun _ v => toString v) twoIntC "" [] ≠
      .error .indexOutOfRange) :=
  ⟨(claim10_no_out_of_range 2 twoIntTs twoIntDisp 2 twoIntC ⟨[], []⟩
      (fun _ v => toString v) "" [] rfl).1 .indexOutOfRange twoIntC ⟨[], []⟩,
   (claim10_no_out_of_range 2 twoIntTs twoIntDisp 2 twoIntC ⟨[], []⟩
      (fun _ v => toString v) "" [] rfl).2 .indexOutOfRange⟩

/-- Counterexample to Claim C8 as stated: a successful numeric attempt
does not consume exactly one whitespace-delimited token — the
unconditional `cin.ignore` discards the remainder of the token's line
on success too.  Feeding the single line `"7 8"`, the reader returns
`7` while the token `8` is gone from the input instead of remaining as
the next token. -/
theorem claim8_counterexample :
    ¬ (∀ (s s' : IOState) (v : Int),
        read_value_tok InputValidator_int parseIntTok "p"
          (default_validator Int) default_error_msg 1 s = some (v, s') →
        tokensOf s'.input = (tokensOf s.input).tail) := by
  intro h
  have hc := h ⟨["7 8"], []⟩ ⟨[], ["p"]⟩ 7 (by decide)
  exact absurd hc (by decide)

/-- Claim C8 amended: per attempt, the token branch consumes one
whitespace-delimited token and discards the remainder of that token's
line on success and on parse failure alike; on a parse failure it
prints the type-specific error message incorporating the type's
display name and re-prompts (the loop continues with one unit less
fuel); the text branch consumes exactly one full line per attempt. -/
theorem claim8_amended :
    (∀ (T : Type) (V : InputValidator T) (parse : String → Option T)
       (prompt : String) (validator : T → Bool) (error_msg : String)
       (fuel : Nat) (line : String) (rest : List String) (out : List String)
       (tok : String) (ts : List String),
      lineTokens line = tok :: ts →
      (∀ v : T, parse tok = some v → V.is_valid v = true →
        validator v = true →
        read_value_tok V parse prompt validator error_msg (fuel + 1)
            ⟨line :: rest, out⟩ =
          some (v, ⟨rest, out ++ [prompt]⟩)) ∧
      (parse tok = none →
        read_value_tok V parse prompt validator error_msg (fuel + 1)
            ⟨line :: rest, out⟩ =
          read_value_tok V parse prompt validator error_msg fuel
            ⟨rest, out ++ [prompt] ++
              ["Error: Invalid " ++ V.type_name ++ " format. " ++
                error_msg]⟩)) ∧
    (∀ (prompt : String) (validator : String → Bool) (error_msg : String)
       (fuel : Nat) (line : String) (rest : List String) (out : List String),
      read_value_str prompt validator error_msg (fuel + 1)
          ⟨line :: rest, out⟩ =
        if InputValidator_string.is_valid line && validator line then
          some (line, ⟨rest, out ++ [prompt]⟩)
        else
          read_value_str prompt validator error_msg fuel
            ⟨rest, out ++ [prompt] ++ [error_msg]⟩) := by
  refine ⟨?_, fun prompt validator error_msg fuel line rest out => rfl⟩
  intro T V parse prompt validator error_msg fuel line rest out tok ts hlt
  have hnt : nextToken (line :: rest) = some (tok, rest) := by
    rw [nextToken, hlt]
  constructor
  · intro v hp hv1 hv2
    simp only [read_value_tok, hnt, hp]
    simp [hv1, hv2]
  · intro hp
    simp only [read_value_tok, hnt, hp]

/-- Witness for the amended C8: a successful attempt on the line
`"7 8"` returns `7` with the whole line consumed. -/
theorem claim8_witness :
    read_value_tok InputValidator_int parseIntTok "p"
        (default_validator Int) default_error_msg 1 ⟨["7 8"], []⟩ =
      some (7, ⟨[], ["p"]⟩) :=
  (claim8_amended.1 Int InputValidator_int parseIntTok "p"
      (default_validator Int) default_error_msg 0 "7 8" [] [] "7" ["8"]
      (by decide)).1 7 (by decide) rfl rfl

end Mylib
